import Mathlib

/- Verification development for the experimental-hub backend worker
   (`backend/modules/connection_runner.py`) and the session store
   (`backend/modules/session_manager.py`).  Python values and JSON
   documents are embedded as inductive trees; the worker's message pump,
   dispatcher, stop logic and state-change handler are embedded as
   executable Lean functions over those trees; the session manager is
   embedded over an association-list session map. -/

/-- Keys of a Python dict as they occur in this code base: strings, or the
integers that `json.dumps` silently coerces to strings. -/
inductive PyKey where
  | kstr (s : String)
  | kint (n : Int)
deriving DecidableEq

mutual
/-- Python values that can flow through `json.dumps` in the worker: scalars,
lists, tuples and dicts.  Floats are abstracted to `int` (the only float the
runner produces is the `time.time()` timestamp, modelled as an integer
clock). -/
inductive PyVal where
  | str (s : String)
  | int (n : Int)
  | bool (b : Bool)
  | none
  | list (xs : PyList)
  | tuple (xs : PyList)
  | dict (kvs : PyDict)
/-- Spine of a Python list or tuple of `PyVal`. -/
inductive PyList where
  | nil
  | cons (hd : PyVal) (tl : PyList)
/-- Spine of a Python dict: key/value items in insertion order. -/
inductive PyDict where
  | nil
  | cons (k : PyKey) (v : PyVal) (tl : PyDict)
end

mutual
/-- JSON documents: what stands on the wire between the worker and its
parent, one document per line. -/
inductive Json where
  | str (s : String)
  | int (n : Int)
  | bool (b : Bool)
  | null
  | arr (xs : JsonArr)
  | obj (kvs : JsonObj)
/-- Spine of a JSON array. -/
inductive JsonArr where
  | nil
  | cons (hd : Json) (tl : JsonArr)
/-- Spine of a JSON object: string-keyed members in order. -/
inductive JsonObj where
  | nil
  | cons (k : String) (v : Json) (tl : JsonObj)
end

/-- Exceptions the dispatcher can raise: `KeyError` from a missing dict key,
`TypeError` from subscripting or unpacking a value of the wrong type,
`ValueError` from unpacking the wrong number of items. -/
inductive PyErr where
  | keyError (k : String)
  | typeError
  | valueError
deriving DecidableEq

/-- Lookup in a Python dict represented as an insertion list: the value of
the last binding of the key wins, as in a dict built by repeated insertion
(and by `json.loads`). -/
def lookupLast : PyDict → PyKey → Option PyVal
  | .nil, _ => Option.none
  | .cons k v rest, key =>
    match lookupLast rest key with
    | some r => some r
    | Option.none => if k = key then some v else Option.none

/-- Python subscript `v[k]` with a string key: `KeyError` when the dict has
no such key, `TypeError` when `v` is not a dict. -/
def pySubscr (v : PyVal) (k : String) : Except PyErr PyVal :=
  match v with
  | .dict kvs =>
    match lookupLast kvs (.kstr k) with
    | some x => Except.ok x
    | Option.none => Except.error (.keyError k)
  | _ => Except.error .typeError

/-- Outbound command envelope as handed to `_send_command(command, data)`. -/
structure Envelope where
  command : String
  data : PyVal

/-- Diagnostic records the runner emits through its logger. -/
inductive LogMsg where
  | warnNoConnection (command : PyVal) (data : PyVal)
  | errUnrecognized (command : PyVal)
  | errParse

/-- Operations invoked on the external Connection facade. -/
inductive FacadeCall where
  | send (data : PyVal)
  | createSubscriberOffer (data : PyVal)
  | handleSubscriberAnswer (data : PyVal)
  | stopSubconnection (data : PyVal)
  | setMuted (video : PyVal) (audio : PyVal)

/-- Observable effects of one `_handle_message` call: envelopes sent to the
parent, facade operations performed, log records emitted. -/
structure DispatchResult where
  sent : List Envelope
  calls : List FacadeCall
  logs : List LogMsg

/-- View of a dict key as the Python value it denotes. -/
def keyToPy : PyKey → PyVal
  | .kstr s => .str s
  | .kint n => .int n

/-- Python 2-tuple unpacking `video, audio = data` as used by the SET_MUTED
branch: lists and tuples of exactly two items unpack to those items,
two-character strings unpack to their characters, two-item dicts unpack to
their keys; other lengths raise `ValueError` and non-iterables raise
`TypeError`. -/
def unpack2 : PyVal → Except PyErr (PyVal × PyVal)
  | .list (.cons v (.cons a .nil)) => Except.ok (v, a)
  | .list _ => Except.error .valueError
  | .tuple (.cons v (.cons a .nil)) => Except.ok (v, a)
  | .tuple _ => Except.error .valueError
  | .str s =>
    match s.toList with
    | [c1, c2] => Except.ok (.str (String.mk [c1]), .str (String.mk [c2]))
    | _ => Except.error .valueError
  | .dict (.cons k1 _ (.cons k2 _ .nil)) => Except.ok (keyToPy k1, keyToPy k2)
  | .dict _ => Except.error .valueError
  | _ => Except.error .typeError

/-- Payload of the PONG reply built at `connection_runner.py:112`: note the
field is named `subprocess_time`, and the clock is the `t` parameter. -/
def pongData (x : PyVal) (t : Int) : PyVal :=
  .dict (.cons (.kstr ("original")) x (.cons (.kstr ("subprocess_time")) (.int t) .nil))

/-- Embedding of `ConnectionRunner._handle_message` (lines 97-127).  `conn`
says whether `self._connection` is set, `t` is the current clock,
`offerOf` abstracts `Connection.create_subscriber_offer`.  The two
subscripts `msg["data"]` and `msg["command"]` run before any guard, so a
message missing either key raises out of the dispatcher. -/
def handle_message (conn : Bool) (t : Int) (offerOf : PyVal → PyVal) (msg : PyVal) :
    Except PyErr DispatchResult :=
  match pySubscr msg ("data") with
  | Except.error e => Except.error e
  | Except.ok data =>
    match pySubscr msg ("command") with
    | Except.error e => Except.error e
    | Except.ok command =>
      if conn = false then
        Except.ok ⟨[], [], [.warnNoConnection command data]⟩
      else
        match command with
        | .str c =>
          match c with
          | "PING" => Except.ok ⟨[⟨("PONG"), pongData data t⟩], [], []⟩
          | "SEND" => Except.ok ⟨[], [.send data], []⟩
          | "CREATE_OFFER" =>
            Except.ok ⟨[⟨("SUBSCRIBER_OFFER"), offerOf data⟩], [.createSubscriberOffer data], []⟩
          | "HANDLE_ANSWER" => Except.ok ⟨[], [.handleSubscriberAnswer data], []⟩
          | "STOP_SUBCONNECTION" => Except.ok ⟨[], [.stopSubconnection data], []⟩
          | "SET_MUTED" =>
            match unpack2 data with
            | Except.ok (v, a) => Except.ok ⟨[], [.setMuted v a], []⟩
            | Except.error e => Except.error e
          | _ => Except.ok ⟨[], [], [.errUnrecognized command]⟩
        | _ => Except.ok ⟨[], [], [.errUnrecognized command]⟩

/-- Canonical inbound PING envelope with payload `x`, as a parsed value. -/
def pingMsg (x : PyVal) : PyVal :=
  .dict (.cons (.kstr ("command")) (.str ("PING")) (.cons (.kstr ("data")) x .nil))

/-- Identity stand-in for the facade's offer constructor in concrete runs. -/
def idPy : PyVal → PyVal := fun v => v

/-- One completed `_read()`: the raw string `sys.stdin.readline` returned
(trailing newline included when the line came newline-terminated) together
with the result of `json.loads` on it — `none` when loading raises. -/
structure InLine where
  raw : String
  parsed : Option PyVal

/-- Events the pump observes while blocked in `_read()`: either a `stop()`
call completing (it runs at the pump's suspension point and clears the
running flag), or the read finishing with a line. -/
inductive PumpEv where
  | stopEv
  | lineEv (l : InLine)

/-- How a run of the read loop ended: the guarded running-flag check saw
false; the `msg != "q"` loop condition saw the sentinel; an exception
escaped `_handle_message`; or the loop is still blocked in `_read()` with
no event left. -/
inductive Outcome where
  | sentinelExit
  | stoppedFlag
  | exn (e : PyErr)
  | blocked
deriving DecidableEq

/-- Observable trace of one run of `_listen_for_messages`: the final
outcome, envelopes sent, facade operations, log records, every parsed
message handed to `_handle_message`, the running-flag value observed at
each guarded check, and the flag's final value. -/
structure PumpResult where
  outcome : Outcome
  sent : List Envelope
  calls : List FacadeCall
  logs : List LogMsg
  dispatches : List PyVal
  checks : List Bool
  finalRunning : Bool

/-- Body of the `_listen_for_messages` loop from just after a passed check:
consume the events of the pending read (each `stop()` completion clears the
flag, the line completes the read), handle the line as lines 89-95 do, then
re-run the loop condition and the guarded flag check before reading again.
The flag check happens before `_read()`, so a line whose read was in flight
when `stop()` ran is still parsed and dispatched. -/
def listenAux (conn : Bool) (t : Int) (offerOf : PyVal → PyVal) :
    Bool → List PumpEv → PumpResult
  | r, [] => ⟨.blocked, [], [], [], [], [], r⟩
  | _, .stopEv :: rest => listenAux conn t offerOf false rest
  | r, .lineEv l :: rest =>
    match l.parsed with
    | Option.none =>
      let tail :=
        if l.raw = "q" then ⟨Outcome.sentinelExit, [], [], [], [], [], r⟩
        else if r = false then ⟨Outcome.stoppedFlag, [], [], [], [], [false], r⟩
        else
          let pr := listenAux conn t offerOf r rest
          { pr with checks := true :: pr.checks }
      { tail with logs := .errParse :: tail.logs }
    | some v =>
      match handle_message conn t offerOf v with
      | Except.error e => ⟨.exn e, [], [], [], [v], [], r⟩
      | Except.ok res =>
        let tail :=
          if l.raw = "q" then ⟨Outcome.sentinelExit, [], [], [], [], [], r⟩
          else if r = false then ⟨Outcome.stoppedFlag, [], [], [], [], [false], r⟩
          else
            let pr := listenAux conn t offerOf r rest
            { pr with checks := true :: pr.checks }
        { outcome := tail.outcome
          sent := res.sent ++ tail.sent
          calls := res.calls ++ tail.calls
          logs := res.logs ++ tail.logs
          dispatches := v :: tail.dispatches
          checks := tail.checks
          finalRunning := tail.finalRunning }

/-- Embedding of `_listen_for_messages` (lines 78-95) from its entry: `msg`
starts as `""`, which is not the sentinel, so the first iteration performs
the guarded flag check and then blocks in `_read()`. -/
def listen_for_messages (conn : Bool) (t : Int) (offerOf : PyVal → PyVal)
    (running : Bool) (evs : List PumpEv) : PumpResult :=
  if running = false then ⟨.stoppedFlag, [], [], [], [], [false], running⟩
  else
    let pr := listenAux conn t offerOf running evs
    { pr with checks := true :: pr.checks }

/-- Mutable control state of the runner that `stop()` touches: the running
flag, the one-shot `_stopped_event`, and the outstanding tasks of
`self._tasks` (counted). -/
structure RunnerCtl where
  running : Bool
  stoppedEvent : Bool
  pendingTasks : Nat
deriving DecidableEq

/-- Primitive steps of `stop()` (lines 69-76) in program order: take the
lock, clear the running flag, release the lock, gather the outstanding
tasks, set the stopped event. -/
inductive StopPrim where
  | lockAcquire
  | setRunningFalse
  | lockRelease
  | awaitTasks
  | setEvent
deriving DecidableEq

/-- Effect of one primitive step on the control state: the lock steps do not
change it, clearing the flag writes false, gathering drains the task set,
and setting an `asyncio.Event` makes it set (setting an already-set event
changes nothing). -/
def applyPrim (s : RunnerCtl) : StopPrim → RunnerCtl
  | .lockAcquire => s
  | .lockRelease => s
  | .setRunningFalse => { s with running := false }
  | .awaitTasks => { s with pendingTasks := 0 }
  | .setEvent => { s with stoppedEvent := true }

/-- Run a sequence of primitive steps, e.g. any interleaving of the steps of
several concurrent `stop()` invocations. -/
def applyPrims : RunnerCtl → List StopPrim → RunnerCtl
  | s, [] => s
  | s, p :: ps => applyPrims (applyPrim s p) ps

/-- Program-order step sequence of a single `stop()` invocation. -/
def stopTrace : List StopPrim :=
  [.lockAcquire, .setRunningFalse, .lockRelease, .awaitTasks, .setEvent]

/-- Embedding of `ConnectionRunner.stop` (lines 69-76) as a state
transformer: its effect is running the five primitive steps in order. -/
def stop (s : RunnerCtl) : RunnerCtl :=
  applyPrims s stopTrace

/-- Number of unset-to-set transitions of the stopped event along a step
sequence: how often the one-shot completion signal actually fires. -/
def eventSetCount : RunnerCtl → List StopPrim → Nat
  | _, [] => 0
  | s, p :: ps =>
    (if s.stoppedEvent = false ∧ (applyPrim s p).stoppedEvent = true then 1 else 0) +
      eventSetCount (applyPrim s p) ps

/-- States of the external connection facade as the runner observes them
(`modules/connection_state.py` is not among the sources; modelled from the
spec, which lists NEW, CONNECTING, CONNECTED, CLOSED and FAILED and calls
CLOSED and FAILED terminal). -/
inductive ConnectionState where
  | new
  | connecting
  | connected
  | closed
  | failed
deriving DecidableEq

/-- Modelled from the spec: the `state.value` payload that line 135 sends in
the STATE_CHANGE envelope; the enum's concrete values are not among the
sources, so the state's name stands in. -/
def stateValue : ConnectionState → PyVal
  | .new => .str ("NEW")
  | .connecting => .str ("CONNECTING")
  | .connected => .str ("CONNECTED")
  | .closed => .str ("CLOSED")
  | .failed => .str ("FAILED")

/-- Test of line 136: is the state in `[ConnectionState.CLOSED, ConnectionState.FAILED]`. -/
def isTerminal (st : ConnectionState) : Bool :=
  st = ConnectionState.closed || st = ConnectionState.failed

/-- Embedding of `_handle_state_change` (lines 133-138): emit STATE_CHANGE
with the new state's value, then call `stop()` when the state is CLOSED or
FAILED; the third component counts the `stop()` invocations (there is no
guard in the handler). -/
def handle_state_change (s : RunnerCtl) (st : ConnectionState) :
    RunnerCtl × List Envelope × Nat :=
  if isTerminal st then (stop s, [⟨("STATE_CHANGE"), stateValue st⟩], 1)
  else (s, [⟨("STATE_CHANGE"), stateValue st⟩], 0)

/-- Run the state-change handler over a sequence of observed facade
transitions, accumulating the envelopes sent and the `stop()` invocations. -/
def runStateChanges : RunnerCtl → List ConnectionState → RunnerCtl × List Envelope × Nat
  | s, [] => (s, [], 0)
  | s, st :: rest =>
    let step := handle_state_change s st
    let others := runStateChanges step.1 rest
    (others.1, step.2.1 ++ others.2.1, step.2.2 + others.2.2)

/-- String a Python dict key turns into under `json.dumps`: string keys stay
themselves, integer keys are silently coerced to their decimal form. -/
def dumpKey : PyKey → String
  | .kstr s => s
  | .kint n => toString n

mutual
/-- Value-level effect of `json.dumps`: the JSON document a Python value
serializes to.  Tuples become arrays and integer dict keys become strings —
the two coercions the standard encoder performs on this code base's
values. -/
def dumps : PyVal → Json
  | .str s => .str s
  | .int n => .int n
  | .bool b => .bool b
  | .none => .null
  | .list xs => .arr (dumpsList xs)
  | .tuple xs => .arr (dumpsList xs)
  | .dict kvs => .obj (dumpsObj kvs)
/-- Elementwise `dumps` over a list/tuple spine. -/
def dumpsList : PyList → JsonArr
  | .nil => .nil
  | .cons x xs => .cons (dumps x) (dumpsList xs)
/-- Itemwise `dumps` over a dict spine, coercing each key. -/
def dumpsObj : PyDict → JsonObj
  | .nil => .nil
  | .cons k v rest => .cons (dumpKey k) (dumps v) (dumpsObj rest)
end

mutual
/-- Value-level effect of `json.loads`: the Python value a JSON document
parses back to.  Arrays always come back as lists and object keys always
come back as strings. -/
def loads : Json → PyVal
  | .str s => .str s
  | .int n => .int n
  | .bool b => .bool b
  | .null => .none
  | .arr xs => .list (loadsList xs)
  | .obj kvs => .dict (loadsObj kvs)
/-- Elementwise `loads` over an array spine. -/
def loadsList : JsonArr → PyList
  | .nil => .nil
  | .cons x xs => .cons (loads x) (loadsList xs)
/-- Itemwise `loads` over an object spine; every key is a string key. -/
def loadsObj : JsonObj → PyDict
  | .nil => .nil
  | .cons k v rest => .cons (.kstr k) (loads v) (loadsObj rest)
end

mutual
/-- Fragment of Python values on which the codec coercions are invisible: no
tuples anywhere and every dict key a string. -/
def faithful : PyVal → Bool
  | .str _ => true
  | .int _ => true
  | .bool _ => true
  | .none => true
  | .list xs => faithfulList xs
  | .tuple _ => false
  | .dict kvs => faithfulDict kvs
/-- Elementwise `faithful` over a list spine. -/
def faithfulList : PyList → Bool
  | .nil => true
  | .cons x xs => faithful x && faithfulList xs
/-- Itemwise `faithful` over a dict spine: string keys, faithful values. -/
def faithfulDict : PyDict → Bool
  | .nil => true
  | .cons (.kstr _) v rest => faithful v && faithfulDict rest
  | .cons (.kint _) _ _ => false
end

/-- Embedding of the encoding side of `_send_command` (lines 145-152): the
JSON document of the line `json.dumps({"command": command, "data": data})`
prints. -/
def send_command (command : String) (data : PyVal) : Json :=
  dumps (.dict (.cons (.kstr ("command")) (.str command)
    (.cons (.kstr ("data")) data .nil)))

/-- Decoding side as the pump performs it: `json.loads` on the line (lines
89-93) followed by the `msg["data"]` and `msg["command"]` reads of
`_handle_message` (lines 99-100); yields the command value and the data
value. -/
def decodeEnvelope (j : Json) : Except PyErr (PyVal × PyVal) :=
  match pySubscr (loads j) ("data") with
  | Except.error e => Except.error e
  | Except.ok d =>
    match pySubscr (loads j) ("command") with
    | Except.error e => Except.error e
    | Except.ok c => Except.ok (c, d)

mutual
/-- Round trip on the faithful fragment: reloading a dumped value gives the
value back. -/
theorem loads_dumps : ∀ v : PyVal, faithful v = true → loads (dumps v) = v
  | .str _, _ => rfl
  | .int _, _ => rfl
  | .bool _, _ => rfl
  | .none, _ => rfl
  | .list xs, h => by
    have hx : faithfulList xs = true := by simpa [faithful] using h
    simp [dumps, loads, loadsList_dumpsList xs hx]
  | .tuple _, h => by simp [faithful] at h
  | .dict kvs, h => by
    have hk : faithfulDict kvs = true := by simpa [faithful] using h
    simp [dumps, loads, loadsObj_dumpsObj kvs hk]
/-- Round trip over a faithful list spine. -/
theorem loadsList_dumpsList : ∀ xs : PyList, faithfulList xs = true →
    loadsList (dumpsList xs) = xs
  | .nil, _ => rfl
  | .cons x xs, h => by
    have h1 : faithful x = true := by
      have := h
      simp [faithfulList, Bool.and_eq_true] at this
      exact this.1
    have h2 : faithfulList xs = true := by
      have := h
      simp [faithfulList, Bool.and_eq_true] at this
      exact this.2
    simp [dumpsList, loadsList, loads_dumps x h1, loadsList_dumpsList xs h2]
/-- Round trip over a faithful dict spine. -/
theorem loadsObj_dumpsObj : ∀ kvs : PyDict, faithfulDict kvs = true →
    loadsObj (dumpsObj kvs) = kvs
  | .nil, _ => rfl
  | .cons (.kstr s) v rest, h => by
    have h1 : faithful v = true := by
      have := h
      simp [faithfulDict, Bool.and_eq_true] at this
      exact this.1
    have h2 : faithfulDict rest = true := by
      have := h
      simp [faithfulDict, Bool.and_eq_true] at this
      exact this.2
    simp [dumpsObj, loadsObj, dumpKey, loads_dumps v h1, loadsObj_dumpsObj rest h2]
  | .cons (.kint _) _ _, h => by simp [faithfulDict] at h
end

/-- Participant entry of a session dict; `create_session` consults only its
`id` field. -/
structure ParticipantDict where
  id : String
deriving DecidableEq

/-- Session dict fields that `create_session` validates and assigns:
`id`, `participants`, `end_time`, `start_time`. -/
structure SessionDict where
  id : String
  participants : List ParticipantDict
  end_time : Int
  start_time : Int
deriving DecidableEq

/-- Payload of an `ErrorDictException` as raised by the session manager. -/
structure ErrorDict where
  code : Nat
  type : String
  description : String
deriving DecidableEq

/-- Modelled from the spec: `modules.data.SessionData` is not among the
sources; the claims need only that it carries the session dict it was
constructed with (its id included), so it is a wrapper. -/
structure SessionData where
  dict : SessionDict
deriving DecidableEq

/-- In-memory state of a `SessionManager`: the `_sessions` dict as an
insertion-ordered association list from session id to session data. -/
structure SessionManager where
  sessions : List (String × SessionData)
deriving DecidableEq

/-- Lookup in the `_sessions` dict (keys are unique under the manager's
operations, so first match suffices). -/
def dictGet (l : List (String × SessionData)) (k : String) : Option SessionData :=
  match l with
  | [] => Option.none
  | (k2, v) :: rest => if k2 = k then some v else dictGet rest k

/-- Python dict assignment `d[k] = v`: replace the binding when the key
exists, append it otherwise. -/
def dictSet (l : List (String × SessionData)) (k : String) (v : SessionData) :
    List (String × SessionData) :=
  match l with
  | [] => [(k, v)]
  | (k2, v2) :: rest => if k2 = k then (k2, v) :: rest else (k2, v2) :: dictSet rest k v

/-- Python `d.pop(k, None)`'s removal effect: drop every binding of `k`. -/
def dictRemove (l : List (String × SessionData)) (k : String) :
    List (String × SessionData) :=
  l.filter (fun p => !(p.1 == k))

/-- Embedding of `SessionManager.get_session` (lines 77-91). -/
def get_session (m : SessionManager) (id : String) : Option SessionData :=
  dictGet m.sessions id

/-- Modelled from the spec: `modules.util.generate_unique_id` is not among
the sources; `create_session` relies only on the result being distinct from
every existing id, so the model returns a string strictly longer than all of
them. -/
def generate_unique_id (existing : List String) : String :=
  String.mk (List.replicate (existing.foldr (fun s m => max s.length m) 0 + 1) 'x')

/-- Session id `_generate_unique_session_id` produces for the manager's
current key set (lines 232-235). -/
def freshId (m : SessionManager) : String :=
  generate_unique_id (m.sessions.map (fun p => p.1))

/-- Session data object `create_session` builds after writing the fresh id
into the session dict (lines 159-162). -/
def freshData (m : SessionManager) (sd : SessionDict) : SessionData :=
  ⟨{ sd with id := freshId m }⟩

/-- Embedding of `SessionManager.create_session` (lines 93-166): the four
default-value checks in program order, each raising an `ErrorDictException`
with code 400 before any mutation; on success a fresh unique id is
assigned, the session is stored under it and returned.  The second
component is the manager's session map after the call. -/
def create_session (m : SessionManager) (sd : SessionDict) :
    Except ErrorDict SessionData × SessionManager :=
  if ¬sd.id = "" then
    (Except.error ⟨400, ("INVALID_REQUEST"),
      ("Session \"id\" must initially be set to an empty string as default value.")⟩, m)
  else if ∃ p ∈ sd.participants, ¬p.id = "" then
    (Except.error ⟨400, ("INVALID_REQUEST"),
      ("Participant \"id\" must initially be set to an empty string as default value.")⟩, m)
  else if ¬sd.end_time = 0 then
    (Except.error ⟨400, ("INVALID_REQUEST"),
      ("\"end_time\" must initially be set to the default value 0.")⟩, m)
  else if ¬sd.start_time = 0 then
    (Except.error ⟨400, ("INVALID_REQUEST"),
      ("\"start_time\" must initially be set to the default value 0.")⟩, m)
  else
    (Except.ok (freshData m sd), ⟨dictSet m.sessions (freshId m) (freshData m sd)⟩)

/-- Embedding of `SessionManager.delete_session` (lines 168-202): a 404
`ErrorDictException` and no mutation for an unknown id; removal of the
binding and `True` (the popped object is never `None`) for a known one. -/
def delete_session (m : SessionManager) (id : String) :
    Except ErrorDict Bool × SessionManager :=
  if dictGet m.sessions id = Option.none then
    (Except.error ⟨404, ("INVALID_REQUEST"), ("No session found for the given ID.")⟩, m)
  else
    (Except.ok (dictGet m.sessions id).isSome, ⟨dictRemove m.sessions id⟩)

/-- Field access on an envelope payload: the value under string key `k` when
the payload is a dict, nothing otherwise. -/
def lookupStr (v : PyVal) (k : String) : Option PyVal :=
  match v with
  | .dict kvs => lookupLast kvs (.kstr k)
  | _ => Option.none

/-- Effect of a full `stop()` on the control state, spelled out. -/
theorem stop_def (s : RunnerCtl) : stop s = ⟨false, true, 0⟩ := rfl

/-- Once the stopped event is set, no primitive step unsets it. -/
theorem applyPrim_event_mono (s : RunnerCtl) (p : StopPrim)
    (h : s.stoppedEvent = true) : (applyPrim s p).stoppedEvent = true := by
  cases p <;> simp [applyPrim, h]

/-- Steps other than setting the event leave the event as it is. -/
theorem applyPrim_event_other (s : RunnerCtl) (p : StopPrim)
    (h : ¬p = StopPrim.setEvent) : (applyPrim s p).stoppedEvent = s.stoppedEvent := by
  cases p <;> simp_all [applyPrim]

/-- A step sequence starting from a set event fires the one-shot signal zero
times. -/
theorem eventSetCount_of_set (ps : List StopPrim) : ∀ s : RunnerCtl,
    s.stoppedEvent = true → eventSetCount s ps = 0 := by
  induction ps with
  | nil => intro s _; rfl
  | cons p rest ih =>
    intro s h
    simp [eventSetCount, h, ih (applyPrim s p) (applyPrim_event_mono s p h)]

/-- Any step sequence that contains a set-event step, run from an unset
event, fires the one-shot signal exactly once. -/
theorem eventSetCount_one (ps : List StopPrim) : ∀ s : RunnerCtl,
    s.stoppedEvent = false → StopPrim.setEvent ∈ ps → eventSetCount s ps = 1 := by
  induction ps with
  | nil => intro s _ hm; cases hm
  | cons p rest ih =>
    intro s h hm
    by_cases hp : p = StopPrim.setEvent
    · subst hp
      have hset : (applyPrim s StopPrim.setEvent).stoppedEvent = true := rfl
      simp [eventSetCount, h, hset, eventSetCount_of_set rest _ hset]
    · have hkeep : (applyPrim s p).stoppedEvent = false := by
        rw [applyPrim_event_other s p hp]; exact h
      have hmem : StopPrim.setEvent ∈ rest := by
        cases hm with
        | head => exact absurd rfl hp
        | tail _ hr => exact hr
      simp [eventSetCount, h, hkeep, ih (applyPrim s p) hkeep hmem]

/-- C4: `stop()` is idempotent — repeated invocations leave the control
state exactly where one invocation leaves it; within one invocation all
outstanding tasks are drained before the fifth and final step sets the
stopped event; and any interleaving of the steps of any number of
invocations, started with the event unset, sets the one-shot stopped signal
exactly once. -/
theorem claim_C4 :
    (∀ s : RunnerCtl, stop (stop s) = stop s) ∧
    (∀ s : RunnerCtl,
      (applyPrims s (stopTrace.take 4)).pendingTasks = 0 ∧
      stopTrace.get? 4 = some StopPrim.setEvent) ∧
    (∀ (s : RunnerCtl) (prims : List StopPrim),
      s.stoppedEvent = false → StopPrim.setEvent ∈ prims →
      eventSetCount s prims = 1) := by
  refine ⟨fun s => rfl, fun s => ⟨rfl, rfl⟩, fun s prims h hm => eventSetCount_one prims s h hm⟩

/-- Witness for C4 at a concrete control state, with the step interleaving
of two back-to-back `stop()` invocations. -/
theorem claim_C4_witness :
    stop (stop ⟨true, false, 3⟩) = stop ⟨true, false, 3⟩ ∧
    (applyPrims ⟨true, false, 3⟩ (stopTrace.take 4)).pendingTasks = 0 ∧
    eventSetCount ⟨true, false, 3⟩ (stopTrace ++ stopTrace) = 1 :=
  ⟨claim_C4.1 ⟨true, false, 3⟩, (claim_C4.2.1 ⟨true, false, 3⟩).1,
    claim_C4.2.2 ⟨true, false, 3⟩ (stopTrace ++ stopTrace) rfl (by decide)⟩

/-- C3 fails as stated: observing the two terminal transitions CLOSED then
FAILED invokes `stop()` twice — `_handle_state_change` has no guard
limiting the automatic `stop()` to once per process. -/
theorem claim_C3_counterexample :
    (runStateChanges ⟨true, false, 0⟩ [ConnectionState.closed, ConnectionState.failed]).2.2 = 2 ∧
    ¬((runStateChanges ⟨true, false, 0⟩
        [ConnectionState.closed, ConnectionState.failed]).2.2 ≤ 1) :=
  ⟨rfl, by decide⟩

/-- C3 amended: on every facade transition the handler emits one
STATE_CHANGE envelope carrying the new state, and every transition to
CLOSED or FAILED invokes `stop()` — so the number of automatic `stop()`
invocations equals the number of terminal transitions observed, not at most
one; the stopped event itself still ends up set (set at most once) whenever
a terminal transition occurs. -/
theorem claim_C3_amended : ∀ (s : RunnerCtl) (sts : List ConnectionState),
    (runStateChanges s sts).2.1 = sts.map (fun st => ⟨("STATE_CHANGE"), stateValue st⟩) ∧
    (runStateChanges s sts).2.2 = sts.countP (fun st => isTerminal st) ∧
    ((runStateChanges s sts).1).stoppedEvent =
      (s.stoppedEvent || sts.any (fun st => isTerminal st)) := by
  intro s sts
  induction sts generalizing s with
  | nil => simp [runStateChanges]
  | cons st rest ih =>
    cases hi : isTerminal st with
    | true =>
      have hr := ih (stop s)
      refine ⟨?_, ?_, ?_⟩
      · simp [runStateChanges, handle_state_change, hi, hr.1]
      · simp [runStateChanges, handle_state_change, hi, List.countP_cons, hr.2.1]
        try omega
      · have hr2 := ih ⟨false, true, 0⟩
        simp [runStateChanges, handle_state_change, hi, stop_def, hr2.2.2]
    | false =>
      have hr := ih s
      refine ⟨?_, ?_, ?_⟩
      · simp [runStateChanges, handle_state_change, hi, hr.1]
      · simp [runStateChanges, handle_state_change, hi, List.countP_cons, hr.2.1]
      · simp [runStateChanges, handle_state_change, hi, hr.2.2]

/-- C2 fails as stated: for the inbound envelope {command: PING, data: "x"}
the dispatcher's unique PONG reply carries the numeric timestamp under the
field `subprocess_time` and has no field `worker_time`; and with no facade
present the same envelope produces no PONG at all. -/
theorem claim_C2_counterexample :
    handle_message true 7 idPy (pingMsg (PyVal.str ("x"))) =
      Except.ok ⟨[⟨("PONG"), pongData (PyVal.str ("x")) 7⟩], [], []⟩ ∧
    lookupStr (pongData (PyVal.str ("x")) 7) ("worker_time") = Option.none ∧
    lookupStr (pongData (PyVal.str ("x")) 7) ("subprocess_time") = some (PyVal.int 7) ∧
    handle_message false 7 idPy (pingMsg (PyVal.str ("x"))) =
      Except.ok ⟨[], [], [LogMsg.warnNoConnection (PyVal.str ("PING")) (PyVal.str ("x"))]⟩ :=
  ⟨rfl, rfl, rfl, rfl⟩

/-- C2 amended: for every inbound envelope {command: PING, data: X}
dispatched while a facade exists, the dispatcher produces exactly one
outbound PONG envelope whose data has field `original` equal to X and a
numeric timestamp under the field `subprocess_time` (not `worker_time`);
while no facade exists the same envelope produces no reply. -/
theorem claim_C2_amended : ∀ (t : Int) (f : PyVal → PyVal) (msg x : PyVal),
    pySubscr msg ("data") = Except.ok x →
    pySubscr msg ("command") = Except.ok (PyVal.str ("PING")) →
    handle_message true t f msg = Except.ok ⟨[⟨("PONG"), pongData x t⟩], [], []⟩ ∧
    lookupStr (pongData x t) ("original") = some x ∧
    lookupStr (pongData x t) ("subprocess_time") = some (PyVal.int t) ∧
    lookupStr (pongData x t) ("worker_time") = Option.none ∧
    handle_message false t f msg =
      Except.ok ⟨[], [], [LogMsg.warnNoConnection (PyVal.str ("PING")) x]⟩ := by
  intro t f msg x h1 h2
  refine ⟨?_, rfl, rfl, rfl, ?_⟩
  · simp [handle_message, h1, h2]
  · simp [handle_message, h1, h2]

/-- Witness for C2 amended at the canonical PING envelope. -/
theorem claim_C2_witness :
    handle_message true 7 idPy (pingMsg (PyVal.int 5)) =
      Except.ok ⟨[⟨("PONG"), pongData (PyVal.int 5) 7⟩], [], []⟩ ∧
    lookupStr (pongData (PyVal.int 5) 7) ("original") = some (PyVal.int 5) :=
  ⟨(claim_C2_amended 7 idPy (pingMsg (PyVal.int 5)) (PyVal.int 5) rfl rfl).1,
    (claim_C2_amended 7 idPy (pingMsg (PyVal.int 5)) (PyVal.int 5) rfl rfl).2.1⟩

/-- C6: every well-formed envelope (both keys present) dispatched while the
session's connection is `None` yields a warning log naming the command and
its payload, no facade call, no outbound reply, and no exception. -/
theorem claim_C6 : ∀ (t : Int) (f : PyVal → PyVal) (msg c d : PyVal),
    pySubscr msg ("data") = Except.ok d →
    pySubscr msg ("command") = Except.ok c →
    handle_message false t f msg = Except.ok ⟨[], [], [LogMsg.warnNoConnection c d]⟩ := by
  intro t f msg c d h1 h2
  simp [handle_message, h1, h2]

/-- Witness for C6 at a concrete PING envelope with no facade. -/
theorem claim_C6_witness :
    handle_message false 3 idPy (pingMsg (PyVal.int 2)) =
      Except.ok ⟨[], [], [LogMsg.warnNoConnection (PyVal.str ("PING")) (PyVal.int 2)]⟩ :=
  claim_C6 3 idPy (pingMsg (PyVal.int 2)) (PyVal.str ("PING")) (PyVal.int 2) rfl rfl

/-- Test whether a pump event is a read returning exactly the sentinel
string `"q"`. -/
def evIsQLine : PumpEv → Bool
  | .lineEv l => l.raw == "q"
  | _ => false

/-- Test whether dispatching a parsed message raises exactly the error `e`. -/
def raisesErr (conn : Bool) (t : Int) (f : PyVal → PyVal) (v : PyVal) (e : PyErr) : Bool :=
  match handle_message conn t f v with
  | Except.error e2 => e2 == e
  | Except.ok _ => false

/-- A flag trace is monotone: once a check observes false, every later check
observes false (the flag never returns to true, so it flips at most once). -/
def monoFlags : List Bool → Bool
  | [] => true
  | true :: rest => monoFlags rest
  | false :: rest => rest.all (fun b => b == false)

/-- A trace of all-false checks is monotone. -/
theorem monoFlags_of_all_false : ∀ bs : List Bool,
    bs.all (fun b => b == false) = true → monoFlags bs = true := by
  intro bs h
  cases bs with
  | nil => rfl
  | cons b rest =>
    cases b with
    | true => simp at h
    | false => simp only [monoFlags]; simp at h; simp [h]

/-- With the running flag already false, every later guarded check observes
false. -/
theorem listenAux_checks_false (conn : Bool) (t : Int) (f : PyVal → PyVal) :
    ∀ evs : List PumpEv,
      ((listenAux conn t f false evs).checks).all (fun b => b == false) = true := by
  intro evs
  induction evs with
  | nil => rfl
  | cons ev rest ih =>
    cases ev with
    | stopEv => simpa [listenAux] using ih
    | lineEv l =>
      obtain ⟨raw, parsed⟩ := l
      cases parsed with
      | none =>
        by_cases hq : raw = "q" <;> simp [listenAux, hq]
      | some v =>
        cases hm : handle_message conn t f v with
        | error e => simp [listenAux, hm]
        | ok res =>
          by_cases hq : raw = "q" <;> simp [listenAux, hm, hq]

/-- Flag traces of the loop body are monotone from any starting flag. -/
theorem listenAux_monoFlags (conn : Bool) (t : Int) (f : PyVal → PyVal) :
    ∀ (evs : List PumpEv) (r : Bool),
      monoFlags ((listenAux conn t f r evs).checks) = true := by
  intro evs
  induction evs with
  | nil => intro r; rfl
  | cons ev rest ih =>
    intro r
    cases ev with
    | stopEv => simpa [listenAux] using ih false
    | lineEv l =>
      obtain ⟨raw, parsed⟩ := l
      cases parsed with
      | none =>
        by_cases hq : raw = "q"
        · simp [listenAux, hq, monoFlags]
        · cases r with
          | false => simp [listenAux, hq, monoFlags]
          | true => simpa [listenAux, hq, monoFlags] using ih true
      | some v =>
        cases hm : handle_message conn t f v with
        | error e => simp [listenAux, hm, monoFlags]
        | ok res =>
          by_cases hq : raw = "q"
          · simp [listenAux, hm, hq, monoFlags]
          · cases r with
            | false => simp [listenAux, hm, hq, monoFlags]
            | true => simpa [listenAux, hm, hq, monoFlags] using ih true

/-- With the flag already false, at most the one read in flight is
dispatched before the next check exits the loop. -/
theorem listenAux_false_dispatches (conn : Bool) (t : Int) (f : PyVal → PyVal) :
    ∀ evs : List PumpEv,
      ((listenAux conn t f false evs).dispatches).length ≤ 1 := by
  intro evs
  induction evs with
  | nil => simp [listenAux]
  | cons ev rest ih =>
    cases ev with
    | stopEv => simpa [listenAux] using ih
    | lineEv l =>
      obtain ⟨raw, parsed⟩ := l
      cases parsed with
      | none =>
        by_cases hq : raw = "q" <;> simp [listenAux, hq]
      | some v =>
        cases hm : handle_message conn t f v with
        | error e => simp [listenAux, hm]
        | ok res =>
          by_cases hq : raw = "q" <;> simp [listenAux, hm, hq]

/-- With the flag already false, it is still false when the loop ends. -/
theorem listenAux_false_final (conn : Bool) (t : Int) (f : PyVal → PyVal) :
    ∀ evs : List PumpEv, (listenAux conn t f false evs).finalRunning = false := by
  intro evs
  induction evs with
  | nil => rfl
  | cons ev rest ih =>
    cases ev with
    | stopEv => simpa [listenAux] using ih
    | lineEv l =>
      obtain ⟨raw, parsed⟩ := l
      cases parsed with
      | none =>
        by_cases hq : raw = "q" <;> simp [listenAux, hq]
      | some v =>
        cases hm : handle_message conn t f v with
        | error e => simp [listenAux, hm]
        | ok res =>
          by_cases hq : raw = "q" <;> simp [listenAux, hm, hq]

/-- The loop exits through the sentinel condition only if some completed
read returned exactly the string `"q"`. -/
theorem listenAux_sentinel_src (conn : Bool) (t : Int) (f : PyVal → PyVal) :
    ∀ (evs : List PumpEv) (r : Bool),
      (listenAux conn t f r evs).outcome = Outcome.sentinelExit →
      evs.any evIsQLine = true := by
  intro evs
  induction evs with
  | nil => intro r h; simp [listenAux] at h
  | cons ev rest ih =>
    intro r h
    cases ev with
    | stopEv =>
      simp only [listenAux] at h
      have hr := ih false h
      simp [List.any_cons, evIsQLine, hr]
    | lineEv l =>
      obtain ⟨raw, parsed⟩ := l
      by_cases hq : raw = "q"
      · simp [List.any_cons, evIsQLine, hq]
      · cases parsed with
        | none =>
          cases r with
          | false => simp [listenAux, hq] at h
          | true =>
            simp only [listenAux, hq] at h
            have hr := ih true (by simpa [hq] using h)
            simp [List.any_cons, evIsQLine, hr]
        | some v =>
          cases hm : handle_message conn t f v with
          | error e => simp [listenAux, hm] at h
          | ok res =>
            cases r with
            | false => simp [listenAux, hm, hq] at h
            | true =>
              simp only [listenAux, hm] at h
              have hr := ih true (by simpa [hq] using h)
              simp [List.any_cons, evIsQLine, hr]

/-- The loop exits through the guarded flag check only if the flag was
already false on entry or a `stop()` completion was observed. -/
theorem listenAux_stopped_src (conn : Bool) (t : Int) (f : PyVal → PyVal) :
    ∀ (evs : List PumpEv) (r : Bool),
      (listenAux conn t f r evs).outcome = Outcome.stoppedFlag →
      r = false ∨ PumpEv.stopEv ∈ evs := by
  intro evs
  induction evs with
  | nil => intro r h; simp [listenAux] at h
  | cons ev rest ih =>
    intro r h
    cases ev with
    | stopEv => exact Or.inr (List.mem_cons_self _ _)
    | lineEv l =>
      obtain ⟨raw, parsed⟩ := l
      cases r with
      | false => exact Or.inl rfl
      | true =>
        by_cases hq : raw = "q"
        · cases parsed with
          | none => simp [listenAux, hq] at h
          | some v =>
            cases hm : handle_message conn t f v with
            | error e => simp [listenAux, hm] at h
            | ok res => simp [listenAux, hm, hq] at h
        · cases parsed with
          | none =>
            simp only [listenAux, hq] at h
            have := ih true (by simpa [hq] using h)
            rcases this with h1 | h2
            · cases h1
            · exact Or.inr (List.mem_cons_of_mem _ h2)
          | some v =>
            cases hm : handle_message conn t f v with
            | error e => simp [listenAux, hm] at h
            | ok res =>
              simp only [listenAux, hm] at h
              have := ih true (by simpa [hq] using h)
              rcases this with h1 | h2
              · cases h1
              · exact Or.inr (List.mem_cons_of_mem _ h2)

/-- The loop dies with an exception only if one of the messages it handed to
the dispatcher made the dispatcher raise exactly that exception. -/
theorem listenAux_exn_src (conn : Bool) (t : Int) (f : PyVal → PyVal) :
    ∀ (evs : List PumpEv) (r : Bool) (e : PyErr),
      (listenAux conn t f r evs).outcome = Outcome.exn e →
      ((listenAux conn t f r evs).dispatches).any
        (fun v => raisesErr conn t f v e) = true := by
  intro evs
  induction evs with
  | nil => intro r e h; simp [listenAux] at h
  | cons ev rest ih =>
    intro r e h
    cases ev with
    | stopEv =>
      simp only [listenAux] at h ⊢
      exact ih false e h
    | lineEv l =>
      obtain ⟨raw, parsed⟩ := l
      cases parsed with
      | none =>
        by_cases hq : raw = "q"
        · simp [listenAux, hq] at h
        · cases r with
          | false => simp [listenAux, hq] at h
          | true =>
            simp only [listenAux, hq] at h ⊢
            exact ih true e (by simpa [hq] using h)
      | some v =>
        cases hm : handle_message conn t f v with
        | error e2 =>
          have he : e2 = e := by simpa [listenAux, hm] using h
          subst he
          simp [listenAux, hm, raisesErr]
        | ok res =>
          by_cases hq : raw = "q"
          · simp [listenAux, hm, hq] at h
          · cases r with
            | false => simp [listenAux, hm, hq] at h
            | true =>
              simp only [listenAux, hm, hq] at h ⊢
              have := ih true e (by simpa [hq] using h)
              simp [this]

/-- C1 fails as stated: the inbound line `"{}"` is valid JSON but parses to
a structure missing the `command` and `data` keys; handling it raises an
uncaught `KeyError` that escapes the pump and terminates it — the following
PING line is never read or dispatched. -/
theorem claim_C1_counterexample :
    listen_for_messages true 0 idPy true
      [PumpEv.lineEv ⟨("\x7b\x7d"), some (PyVal.dict PyDict.nil)⟩,
       PumpEv.lineEv ⟨("\x7b\"command\": \"PING\", \"data\": 1\x7d"),
         some (pingMsg (PyVal.int 1))⟩] =
      ⟨Outcome.exn (PyErr.keyError ("data")), [], [], [],
        [PyVal.dict PyDict.nil], [true], true⟩ := rfl

/-- C1 amended: an inbound line that is not valid JSON (the decoder raises)
is logged and the pump continues with the remaining lines; but a line that
is valid JSON while missing the `data` or `command` key makes the
dispatcher raise an uncaught `KeyError`, which escapes and terminates the
pump. -/
theorem claim_C1_amended :
    (∀ (conn : Bool) (t : Int) (f : PyVal → PyVal) (l : InLine) (rest : List PumpEv),
      l.parsed = Option.none → ¬l.raw = "q" →
      listenAux conn t f true (PumpEv.lineEv l :: rest) =
        { listenAux conn t f true rest with
          logs := LogMsg.errParse :: (listenAux conn t f true rest).logs,
          checks := true :: (listenAux conn t f true rest).checks }) ∧
    (∀ (conn : Bool) (t : Int) (f : PyVal → PyVal) (raw : String) (v : PyVal)
      (e : PyErr) (rest : List PumpEv) (r : Bool),
      handle_message conn t f v = Except.error e →
      listenAux conn t f r (PumpEv.lineEv ⟨raw, some v⟩ :: rest) =
        ⟨Outcome.exn e, [], [], [], [v], [], r⟩) ∧
    (∀ (conn : Bool) (t : Int) (f : PyVal → PyVal) (kvs : PyDict),
      lookupLast kvs (PyKey.kstr ("data")) = Option.none →
      handle_message conn t f (PyVal.dict kvs) =
        Except.error (PyErr.keyError ("data"))) ∧
    (∀ (conn : Bool) (t : Int) (f : PyVal → PyVal) (kvs : PyDict) (d : PyVal),
      lookupLast kvs (PyKey.kstr ("data")) = some d →
      lookupLast kvs (PyKey.kstr ("command")) = Option.none →
      handle_message conn t f (PyVal.dict kvs) =
        Except.error (PyErr.keyError ("command"))) := by
  refine ⟨?_, ?_, ?_, ?_⟩
  · intro conn t f l rest hp hq
    obtain ⟨raw, parsed⟩ := l
    simp only [InLine.raw] at hq
    simp only [InLine.parsed] at hp
    subst hp
    simp [listenAux, hq]
  · intro conn t f raw v e rest r hm
    simp [listenAux, hm]
  · intro conn t f kvs h
    simp [handle_message, pySubscr, h]
  · intro conn t f kvs d h1 h2
    simp [handle_message, pySubscr, h1, h2]

/-- Witness for C1 amended: a non-JSON line is skipped with a parse-error
log, and the empty JSON object raises `KeyError` for `data`. -/
theorem claim_C1_witness :
    listenAux true 0 idPy true [PumpEv.lineEv ⟨("not valid data"), Option.none⟩] =
      { listenAux true 0 idPy true [] with
        logs := LogMsg.errParse :: (listenAux true 0 idPy true []).logs,
        checks := true :: (listenAux true 0 idPy true []).checks } ∧
    handle_message true 0 idPy (PyVal.dict PyDict.nil) =
      Except.error (PyErr.keyError ("data")) :=
  ⟨claim_C1_amended.1 true 0 idPy ⟨("not valid data"), Option.none⟩ [] rfl (by decide),
    claim_C1_amended.2.2.1 true 0 idPy PyDict.nil rfl⟩

/-- C5 fails as stated: `sys.stdin.readline` keeps the trailing newline, so
after the sentinel line arrives as `"q\n"` the loop condition
`msg != "q"` still holds and the loop keeps reading instead of
terminating; and a line whose dispatch raises (here the JSON document `5`,
not subscriptable) terminates the loop by an exception, a third exit
condition beyond the stop flag and the sentinel. -/
theorem claim_C5_counterexample :
    (listen_for_messages true 0 idPy true
      [PumpEv.lineEv ⟨("q\n"), Option.none⟩]).outcome = Outcome.blocked ∧
    (listen_for_messages true 0 idPy true
      [PumpEv.lineEv ⟨("5"), some (PyVal.int 5)⟩]).outcome =
        Outcome.exn PyErr.typeError :=
  ⟨rfl, rfl⟩

/-- C5 amended: whenever a read returns exactly the string `"q"` (no
trailing newline — a newline-terminated sentinel line does not match) the
loop terminates; conversely a sentinel exit implies some read returned
exactly `"q"`, a flag exit implies the flag was false on entry or a
`stop()` completed, and the only other way the loop ends (beyond running
out of input) is an exception raised by dispatching one of the read
messages. -/
theorem claim_C5_amended :
    (∀ (conn : Bool) (t : Int) (f : PyVal → PyVal) (rest : List PumpEv),
      listenAux conn t f true (PumpEv.lineEv ⟨("q"), Option.none⟩ :: rest) =
        ⟨Outcome.sentinelExit, [], [], [LogMsg.errParse], [], [], true⟩) ∧
    (∀ (conn : Bool) (t : Int) (f : PyVal → PyVal) (evs : List PumpEv) (r : Bool),
      (listenAux conn t f r evs).outcome = Outcome.sentinelExit →
      evs.any evIsQLine = true) ∧
    (∀ (conn : Bool) (t : Int) (f : PyVal → PyVal) (evs : List PumpEv) (r : Bool),
      (listenAux conn t f r evs).outcome = Outcome.stoppedFlag →
      r = false ∨ PumpEv.stopEv ∈ evs) ∧
    (∀ (conn : Bool) (t : Int) (f : PyVal → PyVal) (evs : List PumpEv) (r : Bool)
      (e : PyErr),
      (listenAux conn t f r evs).outcome = Outcome.exn e →
      ((listenAux conn t f r evs).dispatches).any
        (fun v => raisesErr conn t f v e) = true) := by
  refine ⟨?_, ?_, ?_, ?_⟩
  · intro conn t f rest
    simp [listenAux]
  · intro conn t f evs r h
    exact listenAux_sentinel_src conn t f evs r h
  · intro conn t f evs r h
    exact listenAux_stopped_src conn t f evs r h
  · intro conn t f evs r e h
    exact listenAux_exn_src conn t f evs r e h

/-- Witness for C5 amended on concrete runs: the bare `"q"` read terminates
the loop, the sentinel exit indeed came from a `"q"` read, and the
exceptional exit indeed came from a message whose dispatch raises. -/
theorem claim_C5_witness :
    listenAux true 0 idPy true [PumpEv.lineEv ⟨("q"), Option.none⟩] =
      ⟨Outcome.sentinelExit, [], [], [LogMsg.errParse], [], [], true⟩ ∧
    ([PumpEv.lineEv (⟨("q"), Option.none⟩ : InLine)].any evIsQLine = true) ∧
    (true = false ∨ PumpEv.stopEv ∈ [PumpEv.stopEv, PumpEv.lineEv ⟨("x"), Option.none⟩]) ∧
    (((listenAux true 0 idPy true [PumpEv.lineEv ⟨("5"), some (PyVal.int 5)⟩]).dispatches).any
      (fun v => raisesErr true 0 idPy v PyErr.typeError) = true) :=
  ⟨claim_C5_amended.1 true 0 idPy [],
    claim_C5_amended.2.1 true 0 idPy [PumpEv.lineEv ⟨("q"), Option.none⟩] true rfl,
    claim_C5_amended.2.2.1 true 0 idPy
      [PumpEv.stopEv, PumpEv.lineEv ⟨("x"), Option.none⟩] true rfl,
    claim_C5_amended.2.2.2 true 0 idPy
      [PumpEv.lineEv ⟨("5"), some (PyVal.int 5)⟩] true PyErr.typeError rfl⟩

/-- C7 fails as stated: with the running flag already cleared by a completed
`stop()`, the read that was in flight still completes and its PING command
is parsed, dispatched and answered with a PONG — a command newly arriving
after the flag turned false is dispatched, because the guarded check
precedes the blocking read. -/
theorem claim_C7_counterexample :
    listen_for_messages true 0 idPy true
      [PumpEv.stopEv,
       PumpEv.lineEv ⟨("\x7b\"command\": \"PING\", \"data\": 1\x7d"),
         some (pingMsg (PyVal.int 1))⟩] =
      ⟨Outcome.stoppedFlag, [⟨("PONG"), pongData (PyVal.int 1) 0⟩], [], [],
        [pingMsg (PyVal.int 1)], [true, false], false⟩ := rfl

/-- C7 amended: the running flag never returns to true — the trace of flag
values at the guarded checks is monotone, so the flag flips true to false
at most once; once the flag is false at most the single read already in
flight is still dispatched, the pump dispatches nothing from its next
guarded check onward, and the flag stays false to the end. -/
theorem claim_C7_amended :
    (∀ (conn : Bool) (t : Int) (f : PyVal → PyVal) (evs : List PumpEv),
      monoFlags ((listen_for_messages conn t f true evs).checks) = true) ∧
    (∀ (conn : Bool) (t : Int) (f : PyVal → PyVal) (evs : List PumpEv),
      ((listenAux conn t f false evs).dispatches).length ≤ 1) ∧
    (∀ (conn : Bool) (t : Int) (f : PyVal → PyVal) (evs : List PumpEv),
      (listen_for_messages conn t f false evs).dispatches = []) ∧
    (∀ (conn : Bool) (t : Int) (f : PyVal → PyVal) (evs : List PumpEv),
      (listenAux conn t f false evs).finalRunning = false) := by
  refine ⟨?_, ?_, ?_, ?_⟩
  · intro conn t f evs
    simp only [listen_for_messages]
    simpa [monoFlags] using listenAux_monoFlags conn t f evs true
  · intro conn t f evs
    exact listenAux_false_dispatches conn t f evs
  · intro conn t f evs
    rfl
  · intro conn t f evs
    exact listenAux_false_final conn t f evs

/-- Envelope payload with an integer dict key: `json.dumps` accepts it and
coerces the key to the string `"1"`. -/
def badData : PyVal :=
  .dict (.cons (.kint 1) (.str ("a")) .nil)

/-- C8 fails as stated: for the representable data value `{1: "a"}` (a dict
with an integer key, which the encoder accepts), decoding the encoded line
yields the envelope with data `{"1": "a"}` — the key has become a string —
and not the original envelope. -/
theorem claim_C8_counterexample :
    decodeEnvelope (send_command ("TEST") badData) =
      Except.ok (PyVal.str ("TEST"),
        PyVal.dict (PyDict.cons (PyKey.kstr ("1")) (PyVal.str ("a")) PyDict.nil)) ∧
    ¬decodeEnvelope (send_command ("TEST") badData) =
        Except.ok (PyVal.str ("TEST"), badData) :=
  ⟨rfl, by
    intro h
    have e1 : decodeEnvelope (send_command ("TEST") badData) =
        Except.ok (PyVal.str ("TEST"),
          PyVal.dict (PyDict.cons (PyKey.kstr ("1")) (PyVal.str ("a")) PyDict.nil)) := rfl
    have h1 := e1.symm.trans h
    simp [badData] at h1⟩

/-- C8 amended: the codec round-trip holds on the coercion-free fragment —
for every command tag and every data value containing no tuple and no
non-string dict key, decoding the encoded line yields back exactly the
envelope {command, data}; outside that fragment (tuples, integer keys) the
encoder's coercions are not undone by the decoder. -/
theorem claim_C8_amended : ∀ (c : String) (d : PyVal), faithful d = true →
    decodeEnvelope (send_command c d) = Except.ok (PyVal.str c, d) := by
  intro c d h
  have e1 : decodeEnvelope (send_command c d) =
      Except.ok (PyVal.str c, loads (dumps d)) := rfl
  rw [e1, loads_dumps d h]

/-- Witness for C8 amended at a concrete faithful envelope. -/
theorem claim_C8_witness :
    decodeEnvelope (send_command ("PING") (PyVal.int 3)) =
      Except.ok (PyVal.str ("PING"), PyVal.int 3) :=
  claim_C8_amended ("PING") (PyVal.int 3) rfl

/-- Every member of a string list is at most as long as the list's running
maximum length. -/
theorem mem_length_le_foldr : ∀ (existing : List String), ∀ s ∈ existing,
    s.length ≤ existing.foldr (fun s m => max s.length m) 0 := by
  intro existing
  induction existing with
  | nil => intro s hs; cases hs
  | cons a rest ih =>
    intro s hs
    cases hs with
    | head => simp only [List.foldr]; exact le_max_left _ _
    | tail b hr =>
      simp only [List.foldr]
      exact le_trans (ih s hr) (le_max_right _ _)

/-- Length of a string built from an explicit character list. -/
theorem String_mk_length (l : List Char) : (String.mk l).length = l.length := rfl

/-- The generated session id is distinct from every existing id: it is
strictly longer than all of them. -/
theorem generate_unique_id_not_mem (existing : List String) :
    generate_unique_id existing ∉ existing := by
  intro hmem
  have hlen := mem_length_le_foldr existing _ hmem
  have hgen : (generate_unique_id existing).length =
      existing.foldr (fun s m => max s.length m) 0 + 1 := by
    unfold generate_unique_id
    rw [String_mk_length]
    exact List.length_replicate _ _
  omega

/-- After assignment, lookup of the assigned key finds the assigned value. -/
theorem dictGet_dictSet (l : List (String × SessionData)) (k : String) (v : SessionData) :
    dictGet (dictSet l k v) k = some v := by
  induction l with
  | nil => simp [dictSet, dictGet]
  | cons p rest ih =>
    obtain ⟨k2, v2⟩ := p
    by_cases hk : k2 = k
    · simp [dictSet, dictGet, hk]
    · simp [dictSet, dictGet, hk, ih]

/-- After removal, lookup of the removed key finds nothing. -/
theorem dictGet_dictRemove (l : List (String × SessionData)) (k : String) :
    dictGet (dictRemove l k) k = Option.none := by
  induction l with
  | nil => rfl
  | cons p rest ih =>
    obtain ⟨k2, v2⟩ := p
    by_cases hk : k2 = k
    · subst hk
      simpa [dictRemove, List.filter_cons] using ih
    · simpa [dictRemove, List.filter_cons, hk, dictGet] using ih

/-- Outcome code of a session-manager call that raised. -/
def exceptCode : Except ErrorDict SessionData → Option Nat
  | Except.error e => some e.code
  | Except.ok _ => Option.none

/-- C9: `create_session` validates before mutating — whenever the session
dict's id is nonempty, or some participant id is nonempty, or `end_time`
or `start_time` is nonzero, the call raises an `ErrorDictException` with
code 400 and the session map is unchanged; otherwise the call succeeds,
assigns a freshly generated id distinct from every stored id, and the new
session is retrievable under that id. -/
theorem claim_C9 : ∀ (m : SessionManager) (sd : SessionDict),
    ((¬sd.id = "" ∨ (∃ p ∈ sd.participants, ¬p.id = "") ∨
        ¬sd.end_time = 0 ∨ ¬sd.start_time = 0) →
      (create_session m sd).2 = m ∧
      exceptCode (create_session m sd).1 = some 400) ∧
    (sd.id = "" → (¬∃ p ∈ sd.participants, ¬p.id = "") →
      sd.end_time = 0 → sd.start_time = 0 →
      create_session m sd =
        (Except.ok (freshData m sd),
          ⟨dictSet m.sessions (freshId m) (freshData m sd)⟩) ∧
      freshId m ∉ m.sessions.map (fun p => p.1) ∧
      get_session (create_session m sd).2 (freshId m) = some (freshData m sd)) := by
  intro m sd
  constructor
  · intro h
    by_cases h1 : sd.id = ""
    · by_cases h2 : ∃ p ∈ sd.participants, ¬p.id = ""
      · simp [create_session, h1, h2, exceptCode]
      · by_cases h3 : sd.end_time = 0
        · by_cases h4 : sd.start_time = 0
          · rcases h with hx | hx | hx | hx
            · exact absurd h1 hx
            · exact absurd hx h2
            · exact absurd h3 hx
            · exact absurd h4 hx
          · simp [create_session, h1, h2, h3, h4, exceptCode]
        · simp [create_session, h1, h2, h3, exceptCode]
    · simp [create_session, h1, exceptCode]
  · intro h1 h2 h3 h4
    refine ⟨?_, ?_, ?_⟩
    · simp [create_session, h1, h2, h3, h4]
    · exact generate_unique_id_not_mem _
    · simp [create_session, h1, h2, h3, h4, get_session, freshData, freshId,
        dictGet_dictSet]

/-- Witness for C9: an invalid dict (nonempty id) is rejected with code 400
and no mutation, and a valid dict is stored under the fresh id. -/
theorem claim_C9_witness :
    ((create_session ⟨[]⟩ ⟨("x"), [], 0, 0⟩).2 = ⟨[]⟩ ∧
      exceptCode (create_session ⟨[]⟩ ⟨("x"), [], 0, 0⟩).1 = some 400) ∧
    (create_session ⟨[]⟩ ⟨(""), [], 0, 0⟩ =
        (Except.ok (freshData ⟨[]⟩ ⟨(""), [], 0, 0⟩),
          ⟨dictSet (SessionManager.mk []).sessions (freshId ⟨[]⟩)
            (freshData ⟨[]⟩ ⟨(""), [], 0, 0⟩)⟩) ∧
      freshId ⟨[]⟩ ∉ (SessionManager.mk []).sessions.map (fun p => p.1) ∧
      get_session (create_session ⟨[]⟩ ⟨(""), [], 0, 0⟩).2 (freshId ⟨[]⟩) =
        some (freshData ⟨[]⟩ ⟨(""), [], 0, 0⟩)) :=
  ⟨(claim_C9 ⟨[]⟩ ⟨("x"), [], 0, 0⟩).1 (Or.inl (by decide)),
    (claim_C9 ⟨[]⟩ ⟨(""), [], 0, 0⟩).2 rfl (by simp) rfl rfl⟩

/-- C10: `delete_session` raises an `ErrorDictException` with code 404 and
leaves the session map unchanged when the id is unknown; for a known id it
returns True and the session is no longer retrievable. -/
theorem claim_C10 : ∀ (m : SessionManager) (id : String),
    (dictGet m.sessions id = Option.none →
      delete_session m id =
        (Except.error ⟨404, ("INVALID_REQUEST"),
          ("No session found for the given ID.")⟩, m)) ∧
    ((dictGet m.sessions id).isSome = true →
      (delete_session m id).1 = Except.ok true ∧
      get_session (delete_session m id).2 id = Option.none) := by
  intro m id
  constructor
  · intro h
    simp [delete_session, h]
  · intro h
    have hne : ¬dictGet m.sessions id = Option.none := by
      intro hx
      rw [hx] at h
      simp at h
    refine ⟨?_, ?_⟩
    · simp [delete_session, hne, h]
    · simp [delete_session, hne, get_session, dictGet_dictRemove]

/-- Witness for C10: deleting from an empty manager raises 404 and changes
nothing; deleting a stored session returns True and makes its id
unresolvable. -/
theorem claim_C10_witness :
    delete_session ⟨[]⟩ ("a") =
      (Except.error ⟨404, ("INVALID_REQUEST"),
        ("No session found for the given ID.")⟩, ⟨[]⟩) ∧
    ((delete_session ⟨[(("a"), ⟨⟨("a"), [], 0, 0⟩⟩)]⟩ ("a")).1 = Except.ok true ∧
      get_session (delete_session ⟨[(("a"), ⟨⟨("a"), [], 0, 0⟩⟩)]⟩ ("a")).2 ("a") =
        Option.none) :=
  ⟨(claim_C10 ⟨[]⟩ ("a")).1 rfl,
    (claim_C10 ⟨[(("a"), ⟨⟨("a"), [], 0, 0⟩⟩)]⟩ ("a")).2 rfl⟩
